import Mathlib

/-!
Verification of the cost-manager data and reporting engine
(src/src/lib/idb-react.ts, src/unnamed/part_017, and the budget evaluator in
src/src/contexts/NotificationContext.jsx / src/unnamed/part_001).

The IndexedDB wrapper is embedded shallowly: the `costs` object store is a
list of records together with the auto-increment key counter, promises become
`Except` values, and the exchange-rate fetch becomes an explicit outcome
parameter.  JavaScript numbers are modelled by `Option Rat`: `some q` is the
finite value `q` (exact rationals in place of floats) and `none` is a
non-finite value (the NaN produced by dividing by an absent rate, or an
infinity produced by a zero rate).  Every arithmetic path in this code maps a
non-finite operand to a non-finite result, so the abstraction is sound for
the definitions below.
-/

namespace CostManager

/-- Supported currencies (src/src/types/index.ts, `Currency`). -/
inductive Currency
  | USD
  | ILS
  | GBP
  | EURO
deriving DecidableEq, Repr

/-- Date structure stored in the database (types/index.ts, `DateStructure`). -/
structure DateStructure where
  year : Int
  month : Int
  day : Int
deriving DecidableEq, Repr

/-- Transaction type strings produced by the add-cost form
(src/src/components/AddCostForm.jsx, `handleSubmit`). -/
inductive CostType
  | expense
  | income
  | savings_deposit
  | savings_withdrawal
deriving DecidableEq, Repr

/-- A cost object as it lives in the `costs` store or crosses the API.
JavaScript objects may lack the `id`, `date` or `type` properties, modelled
here as `Option` fields (`none` = property absent). -/
structure JsCost where
  sum : Rat
  currency : Currency
  category : String
  description : String
  date : Option DateStructure := none
  id : Option Nat := none
  type : Option CostType := none
deriving DecidableEq, Repr

/-- The `costs` object store: its records plus the auto-increment key counter
(created with the id key path and autoIncrement set). -/
structure CostsStore where
  rows : List JsCost
  nextKey : Nat
deriving DecidableEq, Repr

/-- IndexedDB `store.get(id)` on the costs store: the record whose `id`
property equals the key, if any. -/
def storeGet (store : CostsStore) (key : Nat) : Option JsCost :=
  store.rows.find? (fun r => r.id == some key)

/-- addCost (idb-react.ts lines 42-77): builds `costWithDate` from exactly
`sum`, `currency`, `category`, `description` plus the stamped current date,
`store.add` assigns the auto-increment key into the `id` key path, and the
promise resolves with an object holding only the four data fields.  Note that
the `type` property of the submitted cost is not copied into `costWithDate`
and hence is not persisted. -/
def addCost (store : CostsStore) (today : DateStructure) (cost : JsCost) :
    CostsStore × JsCost :=
  let costWithDate : JsCost :=
    { sum := cost.sum, currency := cost.currency, category := cost.category,
      description := cost.description,
      date := some today, id := some store.nextKey, type := none }
  ({ rows := store.rows ++ [costWithDate], nextKey := store.nextKey + 1 },
   { sum := cost.sum, currency := cost.currency, category := cost.category,
     description := cost.description,
     date := none, id := none, type := none })

/-- getAllCosts (idb-react.ts lines 163-177): `store.getAll()`. -/
def getAllCosts (store : CostsStore) : List JsCost :=
  store.rows

/-- getCostsByCategory (idb-react.ts lines 182-206): cursor scan keeping
records whose `category` strictly equals the argument. -/
def getCostsByCategory (rows : List JsCost) (cat : String) : List JsCost :=
  rows.filter (fun c => c.category == cat)

/-- JavaScript numbers in this development: `some q` is a finite value,
`none` a non-finite one (NaN or an infinity). -/
abbrev JSNum := Option Rat

/-- JavaScript addition, restricted to the values arising here: finite plus
finite is finite, and any non-finite operand gives a non-finite result. -/
def jadd : JSNum → JSNum → JSNum
  | some a, some b => some (a + b)
  | _, _ => none

/-- The `reduce((sum, item) => sum + item.sum, 0)` total. -/
def jsum (l : List JSNum) : JSNum :=
  l.foldl jadd (some 0)

/-- JavaScript division of a value by a finite constant: a zero divisor gives
an infinity or NaN, hence `none`. -/
def jdivQ : JSNum → Rat → JSNum
  | some a, b => if b = 0 then none else some (a / b)
  | none, _ => none

/-- JavaScript multiplication of a value by a finite constant. -/
def jmulC : JSNum → Rat → JSNum
  | some a, b => some (a * b)
  | none, _ => none

/-- JavaScript comparison `x > b` for finite `b`: false when `x` is NaN (the
non-finite values reaching the comparisons below are NaN). -/
def jgtQ : JSNum → Rat → Bool
  | some a, b => decide (b < a)
  | none, _ => false

/-- JavaScript comparison `x >= b` for finite `b`: false when `x` is NaN. -/
def jgeQ : JSNum → Rat → Bool
  | some a, b => decide (b ≤ a)
  | none, _ => false

/-- The pivot conversion inlined in getReport (idb-react.ts lines 115-118):
`amountInUSD = cost.sum / rates[cost.currency]` followed by
`amountInUSD * rates[currency]`.  An absent rate gives NaN and a zero source
rate gives an infinity or NaN, so both cases are the non-finite `none`. -/
def convert (rates : Currency → Option Rat) (fromC toC : Currency)
    (amount : Rat) : JSNum :=
  match rates fromC, rates toC with
  | some rf, some rt => if rf = 0 then none else some (amount / rf * rt)
  | _, _ => none

/-- One line of a report (types/index.ts, `ReportCostItem`): the converted
sum, the target currency, and a simplified date carrying only the day. -/
structure ReportCostItem where
  sum : JSNum
  currency : Currency
  category : String
  description : String
  day : Int
deriving DecidableEq, Repr

/-- The total object of a report (types/index.ts, `Report.total`). -/
structure ReportTotal where
  currency : Currency
  total : JSNum
deriving DecidableEq, Repr

/-- The report structure returned by getReport (types/index.ts, `Report`). -/
structure Report where
  year : Int
  month : Int
  costs : List ReportCostItem
  total : ReportTotal
deriving DecidableEq, Repr

/-- The cursor filter of getReport (idb-react.ts line 109):
`value.date && value.date.year === year && value.date.month === month`.
Records without a `date` property are skipped. -/
def matchesMonth (year month : Int) (c : JsCost) : Bool :=
  match c.date with
  | some d => d.year == year && d.month == month
  | none => false

/-- The costs accumulated by the getReport cursor scan. -/
def matchedCosts (rows : List JsCost) (year month : Int) : List JsCost :=
  rows.filter (matchesMonth year month)

/-- The per-cost conversion step of getReport (idb-react.ts lines 115-129). -/
def convertCost (rates : Currency → Option Rat) (target : Currency)
    (c : JsCost) : ReportCostItem :=
  { sum := convert rates c.currency target c.sum,
    currency := target,
    category := c.category,
    description := c.description,
    day := (c.date.map (fun d => d.day)).getD 0 }

/-- The report resolved by getReport once the rates JSON has arrived
(idb-react.ts lines 94-147): filter by exact year and month, convert every
matched cost, and total the converted sums with a fold starting at 0. -/
def buildReport (rates : Currency → Option Rat) (rows : List JsCost)
    (year month : Int) (target : Currency) : Report :=
  let convertedCosts := (matchedCosts rows year month).map (convertCost rates target)
  { year := year, month := month, costs := convertedCosts,
    total := { currency := target, total := jsum (convertedCosts.map (fun i => i.sum)) } }

/-- Outcome of the exchange-rate fetch: either a JSON rate map (absent keys
are `none`) or a network or parse failure. -/
inductive FetchOutcome
  | ok (rates : Currency → Option Rat)
  | failed

/-- Errors with which the wrapped promises reject. -/
inductive JsError
  | notFound
  | fetchFailed
deriving DecidableEq, Repr

/-- The promise returned by getReport (idb-react.ts lines 85-158): it rejects
when the rates fetch fails and otherwise resolves with the report, whatever
the rates map contains.  The storage cursor is modelled as succeeding; its
failure path would reject with the cursor error, independently of the rates. -/
def getReport (fetch : FetchOutcome) (rows : List JsCost)
    (year month : Int) (target : Currency) : Except JsError Report :=
  match fetch with
  | .failed => .error .fetchFailed
  | .ok rates => .ok (buildReport rates rows year month target)

/-- Statistics structure (types/index.ts, `Statistics`).  `totalByCategory`
is the JavaScript object built by getStatistics, an absent key being the
undefined value `none`. -/
structure Statistics where
  totalThisMonth : JSNum
  totalLastMonth : JSNum
  averageDaily : JSNum
  totalByCategory : String → JSNum
  changePercentage : JSNum
  currency : Currency

/-- Gregorian leap-year test, as implemented by the JavaScript Date type. -/
def isLeapYear (y : Int) : Bool :=
  (y % 4 == 0 && y % 100 != 0) || y % 400 == 0

/-- Day count of `new Date(year, month, 0).getDate()` for a 1-based month in
1..12 (idb-react.ts line 267).  Out-of-range months roll over in JavaScript
and are outside the API contract; they are given the default 31 here. -/
def daysInMonth (y m : Int) : Int :=
  if m = 4 ∨ m = 6 ∨ m = 9 ∨ m = 11 then 30
  else if m = 2 then (if isLeapYear y then 29 else 28)
  else 31

/-- One step of the `totalByCategory` accumulation (idb-react.ts lines
271-278): `if (totalByCategory[cost.category]) ... += cost.sum else
... = cost.sum`.  An absent, zero or NaN entry is falsy, so the sum is
assigned rather than added; all three cases coincide with the assignment. -/
def tbcStep (m : String → JSNum) (c : ReportCostItem) : String → JSNum :=
  fun cat =>
    if cat = c.category then
      match m c.category with
      | some v => if v ≠ 0 then jadd (some v) c.sum else c.sum
      | none => c.sum
    else m cat

/-- The `totalByCategory` object of getStatistics. -/
def totalByCategoryOf (costs : List ReportCostItem) : String → JSNum :=
  costs.foldl tbcStep (fun _ => none)

/-- The changePercentage computation of getStatistics (idb-react.ts lines
280-283): `totalLastMonth > 0 ? ((totalThisMonth - totalLastMonth) /
totalLastMonth) * 100 : 0`.  A NaN last total fails the strict comparison
and takes the 0 branch; a NaN this-month total poisons the formula. -/
def changePercentageOf (totalThis totalLast : JSNum) : JSNum :=
  match totalLast with
  | some l =>
    if 0 < l then
      match totalThis with
      | some t => some ((t - l) / l * 100)
      | none => none
    else some 0
  | none => some 0

/-- getStatistics (idb-react.ts lines 247-302): fetches the rates, builds the
report of the requested month and of the previous month (December of the
previous year when the month is January), and derives the metrics.  The
fetch outcome parameter stands for all three rate fetches of one call. -/
def getStatistics (fetch : FetchOutcome) (rows : List JsCost)
    (year month : Int) (target : Currency) : Except JsError Statistics :=
  match fetch with
  | .failed => .error .fetchFailed
  | .ok rates =>
    let lastMonth : Int := if month = 1 then 12 else month - 1
    let lastYear : Int := if month = 1 then year - 1 else year
    let currentReport := buildReport rates rows year month target
    let lastReport := buildReport rates rows lastYear lastMonth target
    let totalThisMonth := currentReport.total.total
    let totalLastMonth := lastReport.total.total
    .ok { totalThisMonth := totalThisMonth,
          totalLastMonth := totalLastMonth,
          averageDaily := jdivQ totalThisMonth ((daysInMonth year month : Int) : Rat),
          totalByCategory := totalByCategoryOf currentReport.costs,
          changePercentage := changePercentageOf totalThisMonth totalLastMonth,
          currency := target }

/-- The fields an updateCost partial may carry (`Partial<Cost>`); `none`
means the property is absent from the partial. -/
structure UpdateFields where
  sum : Option Rat := none
  currency : Option Currency := none
  category : Option String := none
  description : Option String := none
  date : Option DateStructure := none
deriving DecidableEq, Repr

/-- The shallow merge `{ ...existing, ...cost, id: existing.id }` of
updateCost (idb-react.ts lines 320-324). -/
def mergeCost (existing : JsCost) (p : UpdateFields) : JsCost :=
  { sum := p.sum.getD existing.sum,
    currency := p.currency.getD existing.currency,
    category := p.category.getD existing.category,
    description := p.description.getD existing.description,
    date := match p.date with
      | some d => some d
      | none => existing.date,
    id := existing.id,
    type := existing.type }

/-- updateCost (idb-react.ts lines 307-341): `store.get(id)`, rejection with
a not-found error when no record exists, otherwise shallow merge and
`store.put` of the merged record under the same key. -/
def updateCost (store : CostsStore) (key : Nat) (p : UpdateFields) :
    Except JsError (CostsStore × JsCost) :=
  match storeGet store key with
  | none => .error .notFound
  | some existing =>
    let updated := mergeCost existing p
    .ok ({ store with
            rows := store.rows.map (fun r => if r.id == some key then updated else r) },
         updated)

/-- deleteCost (idb-react.ts lines 346-360): `store.delete(id)`.  The
IndexedDB delete request completes successfully whether or not a record with
the key exists, so the promise always resolves. -/
def deleteCost (store : CostsStore) (key : Nat) : Except JsError CostsStore :=
  .ok { store with rows := store.rows.filter (fun r => r.id != some key) }

/-- Category record (types/index.ts, `Category`). -/
structure Category where
  id : Option Nat := none
  name : String
  color : Option String := none
  icon : Option String := none
deriving DecidableEq, Repr

/-- Budget scope strings (types/index.ts, `Budget.type`). -/
inductive BudgetType
  | monthly
  | yearly
  | category
deriving DecidableEq, Repr

/-- Budget record (types/index.ts, `Budget`). -/
structure Budget where
  id : Option Nat := none
  year : Int
  month : Option Int := none
  amount : Rat
  currency : Currency
  category : Option String := none
  type : BudgetType
deriving DecidableEq, Repr

/-- Outcome of a `store.getAll()` request inside a try block: an array
result, a non-array result, the request erroring, or a synchronous
exception. -/
inductive GetAllOutcome (α : Type)
  | arr (xs : List α)
  | nonArray
  | requestError
  | threw
deriving DecidableEq, Repr

/-- getCategories (idb-react.ts lines 365-395): resolves with the empty
array when the object store is missing, when the request errors, when the
result is not an array, or when anything throws; otherwise resolves with the
array.  No branch rejects. -/
def getCategories (hasStore : Bool) (outcome : GetAllOutcome Category) :
    Except JsError (List Category) :=
  if !hasStore then .ok []
  else
    match outcome with
    | .arr xs => .ok xs
    | .nonArray => .ok []
    | .requestError => .ok []
    | .threw => .ok []

/-- getAllBudgets (idb-react.ts lines 559-589): same graceful shape as
getCategories, over the budgets store. -/
def getAllBudgets (hasStore : Bool) (outcome : GetAllOutcome Budget) :
    Except JsError (List Budget) :=
  if !hasStore then .ok []
  else
    match outcome with
    | .arr xs => .ok xs
    | .nonArray => .ok []
    | .requestError => .ok []
    | .threw => .ok []

/-- Truthiness of `budget.month` in checkBudgets: present and nonzero. -/
def monthTruthy : Option Int → Bool
  | some m => m != 0
  | none => false

/-- The spent derivation of checkBudgets (NotificationContext.jsx lines
112-126; part_001 lines 95-109): `let spent = 0`, overwritten with the
monthly report total for a truthy-month monthly budget, with the sum of the
twelve monthly report totals for a yearly budget, and left at 0 otherwise.
There is no branch for category budgets. -/
def budgetSpent (rates : Currency → Option Rat) (rows : List JsCost)
    (b : Budget) : JSNum :=
  if b.type = BudgetType.monthly ∧ monthTruthy b.month then
    (buildReport rates rows b.year (b.month.getD 0) b.currency).total.total
  else if b.type = BudgetType.yearly then
    ((List.range 12).map
        (fun i => (buildReport rates rows b.year ((i : Int) + 1) b.currency).total.total)).foldl
      jadd (some 0)
  else some 0

/-- The two notification kinds checkBudgets can emit for a budget. -/
inductive BudgetSignal
  | exceeded
  | warning
deriving DecidableEq, Repr

/-- The threshold logic of checkBudgets (NotificationContext.jsx lines
128-150): `percentage = (spent / budget.amount) * 100`; exceeded when
`spent > budget.amount`, else warning when `percentage >= 80`, else no
notification. -/
def budgetSignal (spent : JSNum) (amount : Rat) : Option BudgetSignal :=
  if jgtQ spent amount then some BudgetSignal.exceeded
  else if jgeQ (jmulC (jdivQ spent amount) 100) 80 then some BudgetSignal.warning
  else none

/-- Evaluation of one budget by checkBudgets: derive spent, apply the
threshold logic. -/
def checkBudget (rates : Currency → Option Rat) (rows : List JsCost)
    (b : Budget) : Option BudgetSignal :=
  budgetSignal (budgetSpent rates rows b) b.amount

/-- The totals object described by the spec for the report builder:
per-type bucket sums, net savings, and balance (spec section 4.4, item 5).
This follows the words of the spec and is compared against the report the
source code actually builds. -/
structure SpecTotals where
  expenses : Rat
  incomes : Rat
  savings : Rat
  balance : Rat
  currency : Currency
deriving DecidableEq, Repr

/-- The bucket totals the spec prescribes for `getReport(Y, M, C)`: partition
the matched costs by their `type`, convert each sum through the USD pivot,
and set `savings = deposits - withdrawals`, `balance = incomes - expenses`.
Written from the words of the spec to compare with `buildReport`. -/
def specReportTotals (ratesQ : Currency → Rat) (rows : List JsCost)
    (year month : Int) (target : Currency) : SpecTotals :=
  let conv : JsCost → Rat := fun c => c.sum / ratesQ c.currency * ratesQ target
  let matched := matchedCosts rows year month
  let e := ((matched.filter (fun c => c.type == some CostType.expense)).map conv).sum
  let i := ((matched.filter (fun c => c.type == some CostType.income)).map conv).sum
  let d := ((matched.filter (fun c => c.type == some CostType.savings_deposit)).map conv).sum
  let w := ((matched.filter (fun c => c.type == some CostType.savings_withdrawal)).map conv).sum
  { expenses := e, incomes := i, savings := d - w, balance := i - e,
    currency := target }

/-- The spent value the spec prescribes for a category budget: the sum of
all costs matching the budget category via the by-category query, each
converted into the budget currency (spec section 4.6).  Written from the
words of the spec to compare with `budgetSpent`. -/
def specCategorySpent (rates : Currency → Option Rat) (rows : List JsCost)
    (b : Budget) : JSNum :=
  ((getCostsByCategory rows (b.category.getD "")).map
      (fun c => convert rates c.currency b.currency c.sum)).foldl jadd (some 0)

/-- The content the completeness claim ascribes to a resolved report: every
stored cost of the requested month appears converted through the USD pivot,
nothing else appears, the total is the sum of the converted amounts, and an
empty match yields the zero report. -/
def reportExactProp (ratesQ : Currency → Rat) (rows : List JsCost)
    (year month : Int) (target : Currency) : Prop :=
  ∃ r, getReport (FetchOutcome.ok (fun cu => some (ratesQ cu))) rows year month target =
      Except.ok r ∧
    (∀ c ∈ rows, ∀ d : DateStructure, c.date = some d → d.year = year → d.month = month →
      ({ sum := some (c.sum / ratesQ c.currency * ratesQ target),
         currency := target, category := c.category, description := c.description,
         day := d.day } : ReportCostItem) ∈ r.costs) ∧
    (∀ item ∈ r.costs, ∃ c, c ∈ rows ∧ ∃ d : DateStructure, c.date = some d ∧
      d.year = year ∧ d.month = month ∧
      item = { sum := some (c.sum / ratesQ c.currency * ratesQ target),
               currency := target, category := c.category,
               description := c.description, day := d.day }) ∧
    r.costs.length = (matchedCosts rows year month).length ∧
    r.total.total = some (((matchedCosts rows year month).map
        (fun c => c.sum / ratesQ c.currency * ratesQ target)).sum) ∧
    (matchedCosts rows year month = [] → r.costs = [] ∧ r.total.total = some 0)

/-- The flat shape getReport actually produces: one list holding every
matched cost whatever its type, and one total summing all of them. -/
def flatReportProp (ratesQ : Currency → Rat) (rows : List JsCost)
    (year month : Int) (target : Currency) : Prop :=
  ∃ r, getReport (FetchOutcome.ok (fun cu => some (ratesQ cu))) rows year month target =
      Except.ok r ∧
    (∀ c ∈ matchedCosts rows year month,
      convertCost (fun cu => some (ratesQ cu)) target c ∈ r.costs) ∧
    r.costs.length = (matchedCosts rows year month).length ∧
    r.total.currency = target ∧
    r.total.total = some (((matchedCosts rows year month).map
        (fun c => c.sum / ratesQ c.currency * ratesQ target)).sum)

/-- The behaviour of getReport on a cost whose currency is missing from the
rate map: the promise still resolves, the converted sum and the total being
the non-finite NaN. -/
def missingRateProp (rates : Currency → Option Rat) (rows : List JsCost)
    (year month : Int) (target : Currency) (c : JsCost) : Prop :=
  ∃ r, getReport (FetchOutcome.ok rates) rows year month target = Except.ok r ∧
    (convertCost rates target c).sum = none ∧
    convertCost rates target c ∈ r.costs ∧
    r.total.total = none

/-- Store content with one income and one expense in March 2024, used to
compare the flat report against the bucketed totals of the spec. -/
def c1rows : List JsCost :=
  [{ sum := 100, currency := Currency.USD, category := "salary",
     description := "pay", date := some { year := 2024, month := 3, day := 5 },
     id := some 1, type := some CostType.income },
   { sum := 40, currency := Currency.USD, category := "food",
     description := "groceries", date := some { year := 2024, month := 3, day := 6 },
     id := some 2, type := some CostType.expense }]

/-- Store content with a single 1000 USD cost in the Food category. -/
def c6rows : List JsCost :=
  [{ sum := 1000, currency := Currency.USD, category := "Food",
     description := "groceries", date := some { year := 2024, month := 3, day := 2 },
     id := some 1, type := some CostType.expense }]

/-- A category budget of 100 USD on the Food category. -/
def c6budget : Budget :=
  { year := 2024, amount := 100, currency := Currency.USD,
    category := some "Food", type := BudgetType.category }

/-- A rate map with no entry for EURO. -/
def c7rates : Currency → Option Rat :=
  fun cu => match cu with
  | Currency.EURO => none
  | _ => some 1

/-- A stored cost denominated in EURO. -/
def c7cost : JsCost :=
  { sum := 50, currency := Currency.EURO, category := "travel",
    description := "ticket", date := some { year := 2024, month := 3, day := 4 },
    id := some 1 }

/-- A store holding only the EURO cost. -/
def c7rows : List JsCost := [c7cost]

/-- The statistics of an empty store for March 2024 in USD. -/
def c9stats : Statistics :=
  { totalThisMonth := some 0, totalLastMonth := some 0, averageDaily := some 0,
    totalByCategory := fun _ => none, changePercentage := some 0,
    currency := Currency.USD }

/-- Folding jadd over finite summands starting from a finite accumulator
yields the finite sum. -/
theorem foldl_jadd_some {α : Type} (g : α → Rat) :
    ∀ (l : List α) (q : Rat),
      (l.map (fun a => some (g a))).foldl jadd (some q) = some (q + (l.map g).sum) := by
  intro l
  induction l with
  | nil => intro q; simp [jadd]
  | cons a t ih =>
    intro q
    simp only [List.map_cons, List.foldl_cons, List.sum_cons, jadd]
    rw [ih]
    rw [add_assoc]

/-- The reduce-based total of a list of finite values is the finite sum. -/
theorem jsum_map_some {α : Type} (g : α → Rat) (l : List α) :
    jsum (l.map (fun a => some (g a))) = some ((l.map g).sum) := by
  simpa using foldl_jadd_some g l 0

/-- Adding a non-finite value on the right poisons the accumulator. -/
theorem jadd_none (x : JSNum) : jadd x none = none := by
  cases x <;> rfl

/-- A non-finite accumulator stays non-finite through the fold. -/
theorem foldl_jadd_none_acc : ∀ (l : List JSNum), l.foldl jadd none = none := by
  intro l
  induction l with
  | nil => rfl
  | cons a t ih =>
    simp only [List.foldl_cons]
    have : jadd none a = none := by cases a <;> rfl
    rw [this, ih]

/-- Any accumulator folded over a list containing a non-finite summand ends
non-finite. -/
theorem foldl_jadd_of_none_mem :
    ∀ (l : List JSNum) (acc : JSNum), none ∈ l → l.foldl jadd acc = none := by
  intro l
  induction l with
  | nil => intro acc h; cases h
  | cons x s ihs =>
    intro acc h
    rcases List.mem_cons.mp h with hx | hs
    · subst hx
      simp only [List.foldl_cons, jadd_none, foldl_jadd_none_acc]
    · simp only [List.foldl_cons]
      exact ihs _ hs

/-- A non-finite summand makes the whole reduce-based total non-finite. -/
theorem jsum_eq_none_of_mem {l : List JSNum} (h : none ∈ l) : jsum l = none :=
  foldl_jadd_of_none_mem l (some 0) h

/-- The costs list of the report getReport resolves with. -/
theorem buildReport_costs (rates : Currency → Option Rat) (rows : List JsCost)
    (year month : Int) (target : Currency) :
    (buildReport rates rows year month target).costs =
      (matchedCosts rows year month).map (convertCost rates target) := rfl

/-- The total of the report getReport resolves with. -/
theorem buildReport_total (rates : Currency → Option Rat) (rows : List JsCost)
    (year month : Int) (target : Currency) :
    (buildReport rates rows year month target).total.total =
      jsum (((matchedCosts rows year month).map (convertCost rates target)).map
        (fun i => i.sum)) := rfl

/-- The statistics record getStatistics resolves with once the fetch
succeeds. -/
theorem getStatistics_ok (rates : Currency → Option Rat) (rows : List JsCost)
    (year month : Int) (target : Currency) :
    getStatistics (FetchOutcome.ok rates) rows year month target =
      Except.ok
        { totalThisMonth := (buildReport rates rows year month target).total.total,
          totalLastMonth := (buildReport rates rows
              (if month = 1 then year - 1 else year)
              (if month = 1 then 12 else month - 1) target).total.total,
          averageDaily := jdivQ (buildReport rates rows year month target).total.total
              ((daysInMonth year month : Int) : Rat),
          totalByCategory := totalByCategoryOf
              (buildReport rates rows year month target).costs,
          changePercentage := changePercentageOf
              (buildReport rates rows year month target).total.total
              ((buildReport rates rows
                (if month = 1 then year - 1 else year)
                (if month = 1 then 12 else month - 1) target).total.total),
          currency := target } := rfl

/-- When the search predicate fails on all of a left append factor, the find
continues on the right factor. -/
theorem find?_append_left_none {α : Type} (p : α → Bool) :
    ∀ (l₁ l₂ : List α), l₁.find? p = none → (l₁ ++ l₂).find? p = l₂.find? p := by
  intro l₁
  induction l₁ with
  | nil => intro l₂ _; rfl
  | cons x s ih =>
    intro l₂ h
    cases hp : p x with
    | true => simp [List.find?, hp] at h
    | false =>
      simp only [List.cons_append, List.find?, hp]
      simp only [List.find?, hp] at h
      exact ih l₂ h

/-- C9: getStatistics returns changePercentage 0 whenever totalLastMonth is
0, regardless of totalThisMonth, and the relative-change formula
(this minus last, over last, times 100) whenever totalLastMonth is positive;
the strict positivity test guards the division. -/
theorem stats_change_guard (rates : Currency → Option Rat) (rows : List JsCost)
    (year month : Int) (target : Currency) (s : Statistics)
    (hok : getStatistics (FetchOutcome.ok rates) rows year month target = Except.ok s) :
    (s.totalLastMonth = some 0 → s.changePercentage = some 0) ∧
    (∀ l t : Rat, s.totalLastMonth = some l → 0 < l → s.totalThisMonth = some t →
      s.changePercentage = some ((t - l) / l * 100)) := by
  rw [getStatistics_ok] at hok
  have hs := Except.ok.inj hok
  subst hs
  constructor
  · intro h0
    dsimp only at h0 ⊢
    rw [h0]
    simp [changePercentageOf]
  · intro l t hl hlpos ht
    dsimp only at hl ht ⊢
    rw [hl, ht]
    simp [changePercentageOf, hlpos]

/-- Witness for C9 at the empty store and all-ones rates. -/
theorem stats_change_guard_witness :
    getStatistics (FetchOutcome.ok (fun _ => some 1)) [] 2024 3 Currency.USD =
      Except.ok c9stats ∧ c9stats.changePercentage = some 0 := by
  have hok : getStatistics (FetchOutcome.ok (fun _ => some (1 : Rat))) [] 2024 3 Currency.USD =
      Except.ok c9stats := by
    rw [getStatistics_ok]
    simp [c9stats, buildReport_total, buildReport_costs, matchedCosts, jsum,
      totalByCategoryOf, changePercentageOf, jdivQ]
    decide
  exact ⟨hok, (stats_change_guard _ _ _ _ _ _ hok).1 rfl⟩

/-- C10: getCategories and getAllBudgets never reject: whatever the store
state and the outcome of the underlying read, each resolves with an array,
and with the empty array when the store is missing, the read errors, the
result is not an array, or anything throws. -/
theorem categories_budgets_never_reject (hasCat hasBud : Bool)
    (oc : GetAllOutcome Category) (ob : GetAllOutcome Budget) :
    (∃ cs, getCategories hasCat oc = Except.ok cs) ∧
    (∃ bs, getAllBudgets hasBud ob = Except.ok bs) ∧
    (hasCat = false → getCategories hasCat oc = Except.ok []) ∧
    (oc = GetAllOutcome.nonArray ∨ oc = GetAllOutcome.requestError ∨
        oc = GetAllOutcome.threw → getCategories hasCat oc = Except.ok []) ∧
    (hasBud = false → getAllBudgets hasBud ob = Except.ok []) ∧
    (ob = GetAllOutcome.nonArray ∨ ob = GetAllOutcome.requestError ∨
        ob = GetAllOutcome.threw → getAllBudgets hasBud ob = Except.ok []) := by
  cases hasCat <;> cases hasBud <;> cases oc <;> cases ob <;>
    simp [getCategories, getAllBudgets]

/-- Witness for C10 on a missing categories store and a non-array budgets
read. -/
theorem categories_budgets_never_reject_witness :
    getCategories false GetAllOutcome.requestError = Except.ok [] ∧
    getAllBudgets true GetAllOutcome.nonArray = Except.ok [] := by
  have h := categories_budgets_never_reject false true
    GetAllOutcome.requestError GetAllOutcome.nonArray
  exact ⟨h.2.2.1 rfl, h.2.2.2.2.2 (Or.inl rfl)⟩

/-- C5: for a budget with positive amount whose derived spent value is
finite, the evaluator emits exceeded exactly when spent is strictly greater
than the amount, warning exactly when spent is at most the amount and the
percentage reaches 80, and nothing otherwise; in particular spent equal to
the amount emits no exceeded signal and a percentage of exactly 80 warns. -/
theorem budget_thresholds (rates : Currency → Option Rat) (rows : List JsCost)
    (b : Budget) (s : Rat) (hamt : 0 < b.amount)
    (hs : budgetSpent rates rows b = some s) :
    (checkBudget rates rows b = some BudgetSignal.exceeded ↔ b.amount < s) ∧
    (checkBudget rates rows b = some BudgetSignal.warning ↔
      s ≤ b.amount ∧ 80 ≤ s / b.amount * 100) ∧
    (checkBudget rates rows b = none ↔ s ≤ b.amount ∧ s / b.amount * 100 < 80) := by
  have hne : b.amount ≠ 0 := ne_of_gt hamt
  unfold checkBudget
  rw [hs]
  unfold budgetSignal jgtQ jgeQ jdivQ jmulC
  simp only [hne, if_false, decide_eq_true_eq]
  by_cases h1 : b.amount < s
  · simp [h1, if_pos, le_of_lt, not_le.mpr h1]
  · by_cases h2 : (80 : Rat) ≤ s / b.amount * 100
    · simp [h1, h2, not_lt.mp h1, not_lt.mpr h2]
    · simp [h1, h2, not_lt.mp h1, not_le.mp h2]

/-- Witness for C5: a monthly budget of 100 USD for March 2024 against a
store with one 80 USD cost in that month warns. -/
theorem budget_thresholds_witness :
    checkBudget (fun _ => some 1)
      [{ sum := 80, currency := Currency.USD, category := "Food",
         description := "f", date := some { year := 2024, month := 3, day := 1 },
         id := some 1 }]
      { year := 2024, month := some 3, amount := 100, currency := Currency.USD,
        type := BudgetType.monthly } = some BudgetSignal.warning := by
  have hspent : budgetSpent (fun _ => some 1)
      [{ sum := 80, currency := Currency.USD, category := "Food",
         description := "f", date := some { year := 2024, month := 3, day := 1 },
         id := some 1 }]
      { year := 2024, month := some 3, amount := 100, currency := Currency.USD,
        type := BudgetType.monthly } = some 80 := by
    unfold budgetSpent
    simp [monthTruthy, buildReport_total, matchedCosts, matchesMonth,
      convertCost, convert, jsum, jadd]
  have h := budget_thresholds (fun _ => some 1) _ _ 80 (by norm_num) hspent
  exact h.2.1.mpr (by norm_num)

/-- C8 (amended): updateCost on an id absent from the costs store rejects
with the not-found error and the store is unchanged, while deleteCost on an
absent id resolves successfully (the IndexedDB delete request succeeds
whether or not a record matched) and also leaves the store unchanged. -/
theorem update_delete_absent (store : CostsStore) (key : Nat) (p : UpdateFields)
    (habs : storeGet store key = none) :
    updateCost store key p = Except.error JsError.notFound ∧
    deleteCost store key = Except.ok store := by
  constructor
  · unfold updateCost
    rw [habs]
  · unfold deleteCost
    have hall : ∀ r ∈ store.rows, (r.id != some key) = true := by
      intro r hr
      have hne := List.find?_eq_none.mp habs r hr
      simpa using hne
    have : store.rows.filter (fun r => r.id != some key) = store.rows :=
      List.filter_eq_self.mpr hall
    rw [this]

/-- Counterexample for C8: deleting an id absent from an empty store
resolves successfully instead of failing with a not-found error. -/
theorem deleteCost_absent_resolves :
    deleteCost { rows := [], nextKey := 1 } 5 =
      Except.ok { rows := [], nextKey := 1 } := rfl

/-- Witness for C8 at an empty store. -/
theorem update_delete_absent_witness :
    updateCost { rows := [], nextKey := 1 } 3 {} = Except.error JsError.notFound ∧
    deleteCost { rows := [], nextKey := 1 } 3 = Except.ok { rows := [], nextKey := 1 } :=
  update_delete_absent { rows := [], nextKey := 1 } 3 {} rfl

/-- C6 (amended): for every budget of type category the evaluator leaves
spent at its initial 0 — the by-category query is never consulted — and so,
whenever the amount is positive, it emits no signal. -/
theorem category_budget_spent_zero (rates : Currency → Option Rat)
    (rows : List JsCost) (b : Budget) (hb : b.type = BudgetType.category) :
    budgetSpent rates rows b = some 0 ∧
    (0 < b.amount → checkBudget rates rows b = none) := by
  have h1 : budgetSpent rates rows b = some 0 := by
    unfold budgetSpent
    rw [hb]
    simp
  refine ⟨h1, fun hamt => ?_⟩
  unfold checkBudget
  rw [h1]
  unfold budgetSignal jgtQ jgeQ jdivQ jmulC
  have hne : b.amount ≠ 0 := ne_of_gt hamt
  simp [hne, not_lt.mpr (le_of_lt hamt)]

/-- Counterexample for C6: a category budget of 100 USD on Food, with a
stored 1000 USD Food cost and all rates 1, is evaluated with spent 0 and no
signal, although the converted by-category sum prescribed by the spec is
1000 and exceeds the amount. -/
theorem category_budget_ignored :
    budgetSpent (fun _ => some 1) c6rows c6budget = some 0 ∧
    specCategorySpent (fun _ => some 1) c6rows c6budget = some 1000 ∧
    checkBudget (fun _ => some 1) c6rows c6budget = none := by
  have h1 : budgetSpent (fun _ => some 1) c6rows c6budget = some 0 := by
    unfold budgetSpent
    simp [c6budget]
  refine ⟨h1, ?_, ?_⟩
  · unfold specCategorySpent
    simp [getCostsByCategory, c6rows, c6budget, convert, jadd]
  · unfold checkBudget
    rw [h1]
    unfold budgetSignal jgtQ jgeQ jdivQ jmulC
    norm_num [c6budget]

/-- Witness for C6 at an empty store and a category budget. -/
theorem category_budget_spent_zero_witness :
    checkBudget (fun _ => some 1) []
      { year := 2024, amount := 50, currency := Currency.USD,
        category := some "Food", type := BudgetType.category } = none := by
  have h := category_budget_spent_zero (fun _ => some 1) []
    { year := 2024, amount := 50, currency := Currency.USD,
      category := some "Food", type := BudgetType.category } rfl
  exact h.2 (by norm_num)

/-- C7 (amended): when the source or target currency of a matched cost is
absent from the fetched rate map, the conversion yields the non-finite NaN
value rather than a typed error, and getReport still resolves, the NaN
propagating into the affected line and into the total; no MissingRateError
exists in the code. -/
theorem convert_missing_rate (rates : Currency → Option Rat) (rows : List JsCost)
    (year month : Int) (target : Currency) (c : JsCost)
    (hc : c ∈ matchedCosts rows year month)
    (hmiss : rates c.currency = none ∨ rates target = none) :
    missingRateProp rates rows year month target c := by
  have hsum : (convertCost rates target c).sum = none := by
    unfold convertCost convert
    rcases hmiss with h | h
    · cases h2 : rates target <;> simp [h, h2]
    · cases h2 : rates c.currency <;> simp [h, h2]
  refine ⟨buildReport rates rows year month target, rfl, hsum, ?_, ?_⟩
  · rw [buildReport_costs]
    exact List.mem_map_of_mem _ hc
  · rw [buildReport_total]
    apply jsum_eq_none_of_mem
    have hmem : (convertCost rates target c).sum ∈
        ((matchedCosts rows year month).map (convertCost rates target)).map
          (fun i => i.sum) :=
      List.mem_map_of_mem _ (List.mem_map_of_mem _ hc)
    rwa [hsum] at hmem

/-- Counterexample for C7: a report over a store holding one EURO cost,
with no EURO entry in the rate map, resolves with a NaN line and a NaN
total instead of rejecting with a missing-rate error. -/
theorem missing_rate_still_resolves :
    getReport (FetchOutcome.ok c7rates) c7rows 2024 3 Currency.USD =
      Except.ok
        { year := 2024, month := 3,
          costs := [{ sum := none, currency := Currency.USD, category := "travel",
                      description := "ticket", day := 4 }],
          total := { currency := Currency.USD, total := none } } := by
  unfold getReport
  simp only [Except.ok.injEq]
  unfold buildReport
  simp [matchedCosts, matchesMonth, c7rows, c7cost, convertCost, convert,
    c7rates, jsum, jadd]

/-- Witness for C7 at the concrete EURO cost. -/
theorem convert_missing_rate_witness :
    c7cost ∈ matchedCosts c7rows 2024 3 ∧
    missingRateProp c7rates c7rows 2024 3 Currency.USD c7cost := by
  have hc : c7cost ∈ matchedCosts c7rows 2024 3 := by
    simp [matchedCosts, matchesMonth, c7rows, c7cost]
  exact ⟨hc, convert_missing_rate c7rates c7rows 2024 3 Currency.USD c7cost hc
    (Or.inl rfl)⟩

/-- C2 (amended): addCost resolves with a record carrying only the
submitted sum, currency, category and description — no id and no date — and
the store assigns its next key to the persisted record, so fetching that key
returns the stored record, which agrees with the submission on the four
data fields and carries the stamped date. -/
theorem addCost_roundtrip (store : CostsStore) (today : DateStructure) (c : JsCost)
    (hfresh : ∀ r ∈ store.rows, r.id ≠ some store.nextKey) :
    (addCost store today c).2 =
      { sum := c.sum, currency := c.currency, category := c.category,
        description := c.description, date := none, id := none, type := none } ∧
    storeGet (addCost store today c).1 store.nextKey =
      some { sum := c.sum, currency := c.currency, category := c.category,
             description := c.description, date := some today,
             id := some store.nextKey, type := none } := by
  refine ⟨rfl, ?_⟩
  unfold storeGet addCost
  have hnone : store.rows.find? (fun r => r.id == some store.nextKey) = none := by
    apply List.find?_eq_none.mpr
    intro r hr
    simpa using hfresh r hr
  rw [find?_append_left_none _ _ _ hnone]
  simp [List.find?]

/-- Counterexample for C2: the record addCost resolves with carries no id
at all, so it cannot carry the store-assigned id. -/
theorem addCost_result_lacks_id :
    ((addCost { rows := [], nextKey := 1 } { year := 2024, month := 3, day := 10 }
        { sum := 100, currency := Currency.USD, category := "Food",
          description := "lunch" }).2).id = none := rfl

/-- Witness for C2 at an empty store. -/
theorem addCost_roundtrip_witness :
    storeGet (addCost { rows := [], nextKey := 1 } { year := 2024, month := 3, day := 10 }
        { sum := 100, currency := Currency.USD, category := "Food",
          description := "lunch" }).1 1 =
      some { sum := 100, currency := Currency.USD, category := "Food",
             description := "lunch", date := some { year := 2024, month := 3, day := 10 },
             id := some 1, type := none } :=
  (addCost_roundtrip { rows := [], nextKey := 1 } { year := 2024, month := 3, day := 10 }
    { sum := 100, currency := Currency.USD, category := "Food",
      description := "lunch" } (by simp)).2

/-- C4: evaluation of addCost at a submission carrying a transaction type.
The persisted record is built from the sum, currency, category and
description only, so its type property is absent and the later scan returns
it without the submitted type. -/
theorem addCost_drops_type :
    (∀ (store : CostsStore) (today : DateStructure) (c : JsCost),
        (addCost store today c).1.rows =
          store.rows ++
            [{ sum := c.sum, currency := c.currency, category := c.category,
               description := c.description, date := some today,
               id := some store.nextKey, type := none }]) ∧
    getAllCosts (addCost { rows := [], nextKey := 1 } { year := 2024, month := 3, day := 10 }
        { sum := 100, currency := Currency.USD, category := "Food",
          description := "lunch", type := some CostType.savings_deposit }).1 =
      [{ sum := 100, currency := Currency.USD, category := "Food",
         description := "lunch", date := some { year := 2024, month := 3, day := 10 },
         id := some 1, type := none }] :=
  ⟨fun _ _ _ => rfl, rfl⟩

/-- C3: with a rate map defining every currency with a nonzero rate, the
resolved report contains exactly the stored costs of the requested year and
month — none omitted, none added — each amount converted through the USD
pivot as amount over the source rate times the target rate, the total is the
sum of the converted amounts, and an empty match gives a valid zero report
rather than an error. -/
theorem report_completeness (ratesQ : Currency → Rat) (rows : List JsCost)
    (year month : Int) (target : Currency) (hnz : ∀ cu : Currency, ratesQ cu ≠ 0) :
    reportExactProp ratesQ rows year month target := by
  have hconv : ∀ (c : JsCost) (d : DateStructure), c.date = some d →
      convertCost (fun cu => some (ratesQ cu)) target c =
        { sum := some (c.sum / ratesQ c.currency * ratesQ target), currency := target,
          category := c.category, description := c.description, day := d.day } := by
    intro c d hd
    unfold convertCost convert
    rw [hd]
    simp [hnz c.currency]
  have hsum : ∀ c : JsCost, (convertCost (fun cu => some (ratesQ cu)) target c).sum =
      some (c.sum / ratesQ c.currency * ratesQ target) := by
    intro c
    unfold convertCost convert
    simp [hnz c.currency]
  refine ⟨buildReport (fun cu => some (ratesQ cu)) rows year month target,
    rfl, ?_, ?_, ?_, ?_, ?_⟩
  · intro c hc d hd hy hm
    have hmatch : matchesMonth year month c = true := by
      unfold matchesMonth
      rw [hd]
      simp [hy, hm]
    have hcmem : c ∈ matchedCosts rows year month :=
      List.mem_filter.mpr ⟨hc, hmatch⟩
    rw [buildReport_costs]
    have hmem := List.mem_map_of_mem (convertCost (fun cu => some (ratesQ cu)) target) hcmem
    rwa [hconv c d hd] at hmem
  · intro item hitem
    rw [buildReport_costs] at hitem
    obtain ⟨c, hcmem, hceq⟩ := List.mem_map.mp hitem
    obtain ⟨hcrows, hmatch⟩ := List.mem_filter.mp hcmem
    cases hdate : c.date with
    | none =>
      unfold matchesMonth at hmatch
      rw [hdate] at hmatch
      simp at hmatch
    | some d =>
      unfold matchesMonth at hmatch
      rw [hdate] at hmatch
      simp only [Bool.and_eq_true, beq_iff_eq] at hmatch
      exact ⟨c, hcrows, d, hdate, hmatch.1, hmatch.2,
        by rw [← hceq, hconv c d hdate]⟩
  · rw [buildReport_costs, List.length_map]
  · rw [buildReport_total]
    have hmapeq : (((matchedCosts rows year month).map
          (convertCost (fun cu => some (ratesQ cu)) target)).map (fun i => i.sum)) =
        (matchedCosts rows year month).map
          (fun c => some (c.sum / ratesQ c.currency * ratesQ target)) := by
      rw [List.map_map]
      exact List.map_congr_left fun c _ => hsum c
    rw [hmapeq, jsum_map_some]
  · intro hemp
    refine ⟨?_, ?_⟩
    · rw [buildReport_costs, hemp]
      rfl
    · rw [buildReport_total, hemp]
      rfl

/-- Witness for C3 at a one-cost store and all-ones rates. -/
theorem report_completeness_witness :
    (∀ cu : Currency, (1 : Rat) ≠ 0) ∧
    reportExactProp (fun _ => 1)
      [{ sum := 100, currency := Currency.USD, category := "Food",
         description := "lunch", date := some { year := 2024, month := 3, day := 10 },
         id := some 1 }] 2024 3 Currency.USD :=
  ⟨fun _ => one_ne_zero, report_completeness _ _ _ _ _ (fun _ => one_ne_zero)⟩

/-- C1 (amended): getReport returns the matched costs as one flat list —
every matched cost lands in it whatever its type — together with a single
total object carrying the target currency and the sum of all converted
amounts across every transaction type; it computes no per-type buckets, no
net savings and no balance. -/
theorem getReport_flat (ratesQ : Currency → Rat) (rows : List JsCost)
    (year month : Int) (target : Currency) (hnz : ∀ cu : Currency, ratesQ cu ≠ 0) :
    flatReportProp ratesQ rows year month target := by
  have hsum : ∀ c : JsCost, (convertCost (fun cu => some (ratesQ cu)) target c).sum =
      some (c.sum / ratesQ c.currency * ratesQ target) := by
    intro c
    unfold convertCost convert
    simp [hnz c.currency]
  refine ⟨buildReport (fun cu => some (ratesQ cu)) rows year month target,
    rfl, ?_, ?_, rfl, ?_⟩
  · intro c hc
    rw [buildReport_costs]
    exact List.mem_map_of_mem _ hc
  · rw [buildReport_costs, List.length_map]
  · rw [buildReport_total]
    have hmapeq : (((matchedCosts rows year month).map
          (convertCost (fun cu => some (ratesQ cu)) target)).map (fun i => i.sum)) =
        (matchedCosts rows year month).map
          (fun c => some (c.sum / ratesQ c.currency * ratesQ target)) := by
      rw [List.map_map]
      exact List.map_congr_left fun c _ => hsum c
    rw [hmapeq, jsum_map_some]

/-- Counterexample for C1: over a store holding a 100 USD income and a 40
USD expense in March 2024 with all rates 1, the report is one flat two-item
list whose single total is 140, which differs from each of the bucket
totals the claim prescribes (expenses 40, incomes 100, savings 0, balance
60). -/
theorem getReport_not_bucketed :
    (buildReport (fun _ => some 1) c1rows 2024 3 Currency.USD).costs.length = 2 ∧
    (buildReport (fun _ => some 1) c1rows 2024 3 Currency.USD).total.total = some 140 ∧
    specReportTotals (fun _ => 1) c1rows 2024 3 Currency.USD =
      { expenses := 40, incomes := 100, savings := 0, balance := 60,
        currency := Currency.USD } ∧
    ((140 : Rat) ≠ 40 ∧ (140 : Rat) ≠ 100 ∧ (140 : Rat) ≠ 0 ∧ (140 : Rat) ≠ 60) := by
  refine ⟨?_, ?_, ?_, by norm_num⟩
  · rw [buildReport_costs]
    simp [matchedCosts, matchesMonth, c1rows]
  · rw [buildReport_total]
    simp [matchedCosts, matchesMonth, c1rows, convertCost, convert, jsum, jadd]
    norm_num
  · unfold specReportTotals
    simp [matchedCosts, matchesMonth, c1rows]
    norm_num

/-- Witness for C1 at the two-cost store and all-ones rates. -/
theorem getReport_flat_witness :
    (∀ cu : Currency, (1 : Rat) ≠ 0) ∧
    flatReportProp (fun _ => 1) c1rows 2024 3 Currency.USD :=
  ⟨fun _ => one_ne_zero, getReport_flat _ _ _ _ _ (fun _ => one_ne_zero)⟩

end CostManager
